import Mathlib

/-!
Verification of the in-process coordination engine of an Aave-v3-style
liquidation bot (borrower registry, state machine, HF engine, price
aggregator, prepare/execute pipeline), shallowly embedded from the
TypeScript source.  Token amounts (`bigint`) are embedded as `Nat`,
JavaScript `number` values as exact rationals (`ℚ`), with the single
distinguished value `Infinity` carried by the two-constructor type
`JsNum`.  Block heights and timestamps are embedded as `Int`.
-/

/-- Borrower state machine bands (src/state/borrower.ts, `enum BorrowerState`). -/
inductive BorrowerState where
  | SAFE
  | WATCH
  | CRITICAL
  | LIQUIDATABLE
deriving DecidableEq, Repr

/-- A JavaScript `number` as used for health factors and USD values:
either a finite (exact) rational or `Infinity`. -/
inductive JsNum where
  | inf
  | num (q : ℚ)
deriving DecidableEq, Repr

namespace JsNum

/-- `hf <= q` for a finite bound `q` (JS comparison; `Infinity <= q` is false). -/
def leq (hf : JsNum) (q : ℚ) : Bool :=
  match hf with
  | .inf => false
  | .num x => decide (x ≤ q)

/-- `hf >= q` for a finite bound `q` (JS comparison; `Infinity >= q` is true). -/
def geq (hf : JsNum) (q : ℚ) : Bool :=
  match hf with
  | .inf => true
  | .num x => decide (q ≤ x)

/-- `q < hf` (strictly below `hf`); `Infinity` is above every rational. -/
def qlt (q : ℚ) (hf : JsNum) : Prop :=
  match hf with
  | .inf => True
  | .num x => q < x

instance (q : ℚ) (hf : JsNum) : Decidable (qlt q hf) := by
  unfold qlt; cases hf <;> infer_instance

/-- Ordering on `JsNum` with `Infinity` as the top element. -/
def le (a b : JsNum) : Prop :=
  match a, b with
  | _, .inf => True
  | .inf, .num _ => False
  | .num x, .num y => x ≤ y

end JsNum

/-- `determineState` (src/state/borrower.ts lines 128-138): classify a health
factor into a band given the configured thresholds. -/
def determineState (hf : JsNum) (hfWatch hfCritical hfLiquidatable : ℚ) : BorrowerState :=
  if hf.leq hfLiquidatable then BorrowerState.LIQUIDATABLE
  else if hf.leq hfCritical then BorrowerState.CRITICAL
  else if hf.leq hfWatch then BorrowerState.WATCH
  else BorrowerState.SAFE

/-! ## HF engine (src/hf/calc.ts) -/

/-- Price source tag (src/hf/calc.ts, `PriceData.source`). -/
inductive PriceSource where
  | binance
  | pyth
  | oracle
deriving DecidableEq, Repr

/-- `PriceData` (src/hf/calc.ts). -/
structure PriceData where
  asset : String
  priceUsd : ℚ
  timestamp : ℤ
  source : PriceSource
deriving DecidableEq, Repr

/-- `BorrowerBalance` (src/state/borrower.ts): amount is a `bigint` in base
units (non-negative), embedded as `Nat`. -/
structure BorrowerBalance where
  asset : String
  amount : ℕ
  valueUsd : ℚ
deriving DecidableEq, Repr

/-- `TOKEN_DECIMALS` (src/tokens/index.ts). -/
def TOKEN_DECIMALS : List (String × ℕ) :=
  [("USDC", 6), ("EURC", 6), ("WETH", 18), ("cbETH", 18),
   ("weETH", 18), ("wstETH", 18), ("cbBTC", 8), ("GHO", 18)]

/-- JavaScript `a || b` on an optional number: a missing or zero (falsy)
left operand falls through to the default. -/
def jsOrNat (v : Option ℕ) (dflt : ℕ) : ℕ :=
  match v with
  | some d => if d = 0 then dflt else d
  | none => dflt

/-- JavaScript `a || b` on an optional rational. -/
def jsOrQ (v : Option ℚ) (dflt : ℚ) : ℚ :=
  match v with
  | some x => if x = 0 then dflt else x
  | none => dflt

/-- `getTokenDecimalsSync` (src/tokens/index.ts lines 91-93):
`TOKEN_DECIMALS[symbol] || 18`. -/
def getTokenDecimalsSync (symbol : String) : ℕ :=
  jsOrNat (TOKEN_DECIMALS.lookup symbol) 18

/-- `DEFAULT_LIQUIDATION_THRESHOLDS` (src/hf/calc.ts). -/
def DEFAULT_LIQUIDATION_THRESHOLDS : List (String × ℚ) :=
  [("WETH", 825/1000), ("cbETH", 78/100), ("USDC", 80/100),
   ("USDT", 80/100), ("DAI", 80/100)]

/-- The threshold selection in `calculateHealthFactor`:
`liquidationThresholds?.get(asset) || DEFAULT_LIQUIDATION_THRESHOLDS[asset] || 0.75`. -/
def thresholdFor (liquidationThresholds : Option (List (String × ℚ))) (asset : String) : ℚ :=
  jsOrQ (liquidationThresholds.bind (fun m => m.lookup asset))
    (jsOrQ (DEFAULT_LIQUIDATION_THRESHOLDS.lookup asset) (3/4))

/-- `calculateHealthFactor` (src/hf/calc.ts lines 255-296).  A missing price
leaves the accumulator unchanged; zero total debt yields `Infinity`. -/
def calculateHealthFactor (collateralBalances debtBalances : List BorrowerBalance)
    (prices : List (String × PriceData))
    (liquidationThresholds : Option (List (String × ℚ))) : JsNum :=
  let totalDebt := debtBalances.foldl
    (fun sum balance =>
      match prices.lookup balance.asset with
      | none => sum
      | some price =>
          sum + (balance.amount : ℚ) * price.priceUsd / 10 ^ getTokenDecimalsSync balance.asset)
    0
  if totalDebt = 0 then JsNum.inf
  else
    let weightedCollateral := collateralBalances.foldl
      (fun sum balance =>
        match prices.lookup balance.asset with
        | none => sum
        | some price =>
            let threshold := thresholdFor liquidationThresholds balance.asset
            let collateralValue :=
              (balance.amount : ℚ) * price.priceUsd / 10 ^ getTokenDecimalsSync balance.asset
            sum + collateralValue * threshold)
      0
    JsNum.num (weightedCollateral / totalDebt)

/-- Spec-side debt contribution of one balance:
`debt.amount × price(debt.asset) / 10^decimals`, zero when the price is missing. -/
def debtTermUsd (prices : List (String × PriceData)) (b : BorrowerBalance) : ℚ :=
  match prices.lookup b.asset with
  | none => 0
  | some price => (b.amount : ℚ) * price.priceUsd / 10 ^ getTokenDecimalsSync b.asset

/-- Spec-side collateral contribution of one balance:
`coll.amount × price × threshold / 10^decimals`, zero when the price is missing. -/
def collTermUsd (prices : List (String × PriceData))
    (liquidationThresholds : Option (List (String × ℚ))) (b : BorrowerBalance) : ℚ :=
  match prices.lookup b.asset with
  | none => 0
  | some price =>
      (b.amount : ℚ) * price.priceUsd * thresholdFor liquidationThresholds b.asset /
        10 ^ getTokenDecimalsSync b.asset

/-- Spec-side total debt: `Σ debt.amount × price / 10^decimals`. -/
def totalDebtUsdSpec (debtBalances : List BorrowerBalance)
    (prices : List (String × PriceData)) : ℚ :=
  (debtBalances.map (debtTermUsd prices)).sum

/-- Spec-side weighted collateral: `Σ coll.amount × price × threshold / 10^decimals`. -/
def weightedCollateralSpec (collateralBalances : List BorrowerBalance)
    (prices : List (String × PriceData))
    (liquidationThresholds : Option (List (String × ℚ))) : ℚ :=
  (collateralBalances.map (collTermUsd prices liquidationThresholds)).sum

/-! ## Borrower data model (src/state/borrower.ts) -/

/-- `CachedTransaction` (src/state/borrower.ts); the source field `to` is a
Lean keyword and is embedded as `toAddress`. -/
structure CachedTransaction where
  toAddress : String
  data : String
  value : ℕ
  gasLimit : ℕ
  maxFeePerGas : ℕ
  maxPriorityFeePerGas : ℕ
  expectedProfitUsd : ℚ
  estimatedGasUsd : ℚ
  preparedAt : ℤ
deriving DecidableEq, Repr

/-- Flash liquidation simulation result (src/state/borrower.ts, `flashResult`). -/
structure FlashResult where
  success : Bool
  debtAsset : String
  collateralAsset : String
  debtAmount : ℕ
  expectedProfit : ℚ
  gasEstimate : ℕ
  gasUsd : ℚ
  oneInchData : String
  minAmountOut : ℕ
  error : Option String
deriving DecidableEq, Repr

/-- One entry of a borrower's state transition history. -/
structure StateHistoryEntry where
  state : BorrowerState
  timestamp : ℤ
  hf : JsNum
deriving DecidableEq, Repr

/-- `Borrower` (src/state/borrower.ts). -/
structure Borrower where
  address : String
  state : BorrowerState
  collateralBalances : List BorrowerBalance
  debtBalances : List BorrowerBalance
  predictedHF : JsNum
  oracleHF : JsNum
  lastHFUpdate : ℤ
  hydrated : Bool
  firstHydratedAt : Option ℤ
  stateHistory : List StateHistoryEntry
  cachedTx : Option CachedTransaction
  preparedBlockNumber : Option ℤ
  flashResult : Option FlashResult
  lastSkipReason : Option String
  lastPreparedBlock : Option ℤ
  lastExecutionAttemptAt : Option ℤ
  firstSeenAt : ℤ
  lastUpdatedAt : ℤ
  lastEventAt : ℤ
deriving DecidableEq, Repr

/-- `LiquidationEstimate` (src/hf/calc.ts).  `collateralAmount` is the
`BigInt(Math.floor(...))` result, hence an integer. -/
structure LiquidationEstimate where
  debtAsset : String
  debtAmount : ℕ
  collateralAsset : String
  collateralAmount : ℤ
  profitUsd : ℚ
  debtValueUsd : ℚ
  collateralValueUsd : ℚ
  liquidationBonus : ℚ
deriving DecidableEq, Repr

/-- `estimateLiquidation` (src/hf/calc.ts lines 326-381): close factor 50%,
required collateral computed with `Math.floor`, `null` when the borrower does
not hold both assets, a price is missing, or the required collateral exceeds
the held balance. -/
def estimateLiquidation (borrower : Borrower) (prices : List (String × PriceData))
    (debtAsset collateralAsset : String) (liquidationBonus : ℚ) :
    Option LiquidationEstimate :=
  match borrower.debtBalances.find? (fun b => b.asset == debtAsset) with
  | none => none
  | some debtBalance =>
    match borrower.collateralBalances.find? (fun b => b.asset == collateralAsset) with
    | none => none
    | some collateralBalance =>
      match prices.lookup debtAsset, prices.lookup collateralAsset with
      | some debtPrice, some collateralPrice =>
        let maxDebtAmount := debtBalance.amount / 2
        let debtDecimals := getTokenDecimalsSync debtAsset
        let debtValueUsd := (maxDebtAmount : ℚ) * debtPrice.priceUsd / 10 ^ debtDecimals
        let requiredCollateralValueUsd := debtValueUsd * (1 + liquidationBonus)
        let collateralDecimals := getTokenDecimalsSync collateralAsset
        let requiredCollateralAmount : ℤ :=
          ⌊requiredCollateralValueUsd / collateralPrice.priceUsd * 10 ^ collateralDecimals⌋
        if requiredCollateralAmount > (collateralBalance.amount : ℤ) then none
        else
          let profitUsd := debtValueUsd * liquidationBonus
          let collateralValueUsd :=
            (requiredCollateralAmount : ℚ) * collateralPrice.priceUsd / 10 ^ collateralDecimals
          some ⟨debtAsset, maxDebtAmount, collateralAsset, requiredCollateralAmount,
            profitUsd, debtValueUsd, collateralValueUsd, liquidationBonus⟩
      | _, _ => none

/-- A borrower record with given state, balances and cache fields; the audit
and timestamp fields are fixed defaults (used for concrete instances). -/
def mkBorrower (address : String) (state : BorrowerState)
    (colls debts : List BorrowerBalance) (cachedTx : Option CachedTransaction)
    (preparedBlockNumber : Option ℤ) : Borrower :=
  { address := address
    state := state
    collateralBalances := colls
    debtBalances := debts
    predictedHF := JsNum.inf
    oracleHF := JsNum.inf
    lastHFUpdate := 0
    hydrated := true
    firstHydratedAt := none
    stateHistory := [⟨state, 0, JsNum.inf⟩]
    cachedTx := cachedTx
    preparedBlockNumber := preparedBlockNumber
    flashResult := none
    lastSkipReason := none
    lastPreparedBlock := none
    lastExecutionAttemptAt := none
    firstSeenAt := 0
    lastUpdatedAt := 0
    lastEventAt := 0 }

/-- Counterexample input for C3: USDC debt of 2·10^6 base units at price 1,
and 1 base unit of WETH collateral at price 7·10^17 USD. -/
def c3Borrower : Borrower :=
  mkBorrower "0xc3" BorrowerState.CRITICAL
    [⟨"WETH", 1, 0⟩] [⟨"USDC", 2 * 10 ^ 6, 0⟩] none none

/-- Counterexample price map for C3. -/
def c3Prices : List (String × PriceData) :=
  [("USDC", ⟨"USDC", 1, 0, PriceSource.binance⟩),
   ("WETH", ⟨"WETH", 7 * 10 ^ 17, 0, PriceSource.binance⟩)]

/-- Scenario-S3 borrower: 10 WETH collateral, 10000 USDC debt. -/
def s3Borrower : Borrower :=
  mkBorrower "0x123" BorrowerState.CRITICAL
    [⟨"WETH", 10 * 10 ^ 18, 0⟩] [⟨"USDC", 10000 * 10 ^ 6, 0⟩] none none

/-- Scenario-S3 prices: WETH at 2000 USD, USDC at 1 USD. -/
def s3Prices : List (String × PriceData) :=
  [("WETH", ⟨"WETH", 2000, 0, PriceSource.binance⟩),
   ("USDC", ⟨"USDC", 1, 0, PriceSource.binance⟩)]

/-! ## Borrower registry (class BorrowerRegistry, src/unnamed/part_001) -/

/-- Configuration options consumed by the modelled components
(src/config/env.ts). -/
structure Config where
  hfWatch : ℚ
  hfCritical : ℚ
  hfLiquidatable : ℚ
  txCacheTtlBlocks : ℤ
  minDebtUsd : ℚ
  minProfitUsd : ℚ
  maxGasUsd : ℚ
  maxConcurrentTx : ℤ
  priceStaleMs : ℤ
  enableExecution : Bool
  dryRun : Bool
  flashLiquidatorAddress : String
deriving DecidableEq, Repr

/-- JavaScript `address.toLowerCase()` embedded structurally (the core
`String.toLower` is defined by well-founded recursion on positions, which
blocks kernel evaluation; this map over the character list agrees with it on
every string). -/
def lowercase (s : String) : String := String.mk (s.data.map Char.toLower)

/-- The registry's state: the borrowers map and the independent advisory
per-borrower mutex map, both keyed by lowercased address (JS `Map`s embedded
as association lists; `lookup` returns the most recent binding). -/
structure Registry where
  borrowers : List (String × Borrower)
  borrowerMutex : List (String × Bool)
deriving DecidableEq, Repr

namespace Registry

/-- `getBorrower` (part_001 lines 11-13): case-insensitive lookup. -/
def getBorrower (r : Registry) (address : String) : Option Borrower :=
  r.borrowers.lookup (lowercase address)

/-- In-place mutation of the live record returned by `getBorrower`:
the JS code mutates the object stored in the map. -/
def modifyBorrower (r : Registry) (address : String) (f : Borrower → Borrower) : Registry :=
  { r with borrowers :=
      r.borrowers.map (fun kv => if kv.1 = lowercase address then (kv.1, f kv.2) else kv) }

/-- `updateBorrowerState` (src/state/borrower.ts lines 107-125): no-op when
the state is unchanged, otherwise transition, append to history and keep the
last 100 entries. -/
def updateBorrowerState (b : Borrower) (newState : BorrowerState) (hf : JsNum)
    (now : ℤ) : Borrower :=
  if b.state = newState then b
  else
    let h := b.stateHistory ++ [⟨newState, now, hf⟩]
    { b with
      state := newState
      lastUpdatedAt := now
      stateHistory := if 100 < h.length then h.drop (h.length - 100) else h }

/-- `updateBorrowerHF` (part_001 lines 56-114): write the HF values, classify,
clear the cached transaction only on a CRITICAL/LIQUIDATABLE → WATCH
transition, and transition the state if it changed. -/
def updateBorrowerHF (cfg : Config) (now : ℤ) (r : Registry) (address : String)
    (predictedHF : JsNum) (oracleHF : Option JsNum) : Registry :=
  match r.getBorrower address with
  | none => r
  | some borrower =>
    let b1 := { borrower with
      predictedHF := predictedHF
      oracleHF := match oracleHF with | some o => o | none => borrower.oracleHF
      lastHFUpdate := now
      lastUpdatedAt := now }
    let newState :=
      determineState predictedHF cfg.hfWatch cfg.hfCritical cfg.hfLiquidatable
    let b2 :=
      if b1.cachedTx.isSome ∧ newState = BorrowerState.WATCH ∧
          (borrower.state = BorrowerState.CRITICAL ∨
           borrower.state = BorrowerState.LIQUIDATABLE) then
        { b1 with cachedTx := none, flashResult := none, preparedBlockNumber := none }
      else b1
    let b3 :=
      if newState ≠ b2.state then updateBorrowerState b2 newState predictedHF now else b2
    r.modifyBorrower address (fun _ => b3)

/-- `invalidateCachedTx` (part_001 lines 117-128): clears the cache fields;
no-op when the borrower or its cached transaction is absent. -/
def invalidateCachedTx (r : Registry) (address : String) (_reason : String) : Registry :=
  match r.getBorrower address with
  | none => r
  | some b =>
    if b.cachedTx.isSome then
      r.modifyBorrower address (fun b =>
        { b with cachedTx := none, flashResult := none, preparedBlockNumber := none })
    else r

/-- `isCachedTxStale` (part_001 lines 131-152): false when the borrower, the
cached transaction, or a (truthy) prepared block is absent; otherwise true iff
`currentBlock − preparedBlockNumber > TX_CACHE_TTL_BLOCKS`.  JS truthiness
makes a `preparedBlockNumber` of 0 count as absent. -/
def isCachedTxStale (cfg : Config) (r : Registry) (address : String)
    (currentBlock : ℤ) : Bool :=
  match r.getBorrower address with
  | none => false
  | some b =>
    match b.cachedTx, b.preparedBlockNumber with
    | some _, some p =>
      if p = 0 then false
      else decide (currentBlock - p > cfg.txCacheTtlBlocks)
    | _, _ => false

/-- Modelled from the spec: `BorrowerRegistry.updateSkipReason` is called from
src/index.ts but its definition is not among the provided sources; per the
spec's audit fields (`last_skip_reason`) it records the skip reason on the
borrower record. -/
def updateSkipReason (r : Registry) (address : String) (reason : String) : Registry :=
  r.modifyBorrower address (fun b => { b with lastSkipReason := some reason })

/-- Truthiness of a JS `Map<string, boolean>` entry: `map.get(key)` is falsy
when absent or `false`. -/
def isLockedKey (m : List (String × Bool)) (key : String) : Bool :=
  (m.lookup key).getD false

/-- `tryAcquireLock` (part_001 lines 191-200): non-blocking; false when the
key is already truthy in the mutex map, otherwise sets it and returns true. -/
def tryAcquireLock (r : Registry) (address : String) : Registry × Bool :=
  let key := lowercase address
  if isLockedKey r.borrowerMutex key then (r, false)
  else ({ r with borrowerMutex := (key, true) :: r.borrowerMutex }, true)

/-- `releaseLock` (part_001 lines 203-206): deletes the key. -/
def releaseLock (r : Registry) (address : String) : Registry :=
  let key := lowercase address
  { r with borrowerMutex := r.borrowerMutex.filter (fun kv => !(kv.1 == key)) }

/-- `isLocked` (part_001 lines 209-212): `mutex.get(key) || false`. -/
def isLocked (r : Registry) (address : String) : Bool :=
  isLockedKey r.borrowerMutex (lowercase address)

end Registry

/-- Concrete configuration for the C1 exhibit: bands HF_WATCH = 3 >
HF_CRITICAL = 2 > HF_LIQUIDATABLE = 1 (integer bands keep every comparison
kernel-computable); remaining options are immaterial here. -/
def c1Cfg : Config :=
  { hfWatch := 3, hfCritical := 2, hfLiquidatable := 1, txCacheTtlBlocks := 5,
    minDebtUsd := 50, minProfitUsd := 50, maxGasUsd := 20, maxConcurrentTx := 1,
    priceStaleMs := 5000, enableExecution := false, dryRun := true,
    flashLiquidatorAddress := "" }

/-- A prepared transaction sitting in the cache for the C1 exhibit. -/
def c1Tx : CachedTransaction :=
  { toAddress := "0xpool", data := "0xdata", value := 0, gasLimit := 500000,
    maxFeePerGas := 0, maxPriorityFeePerGas := 0, expectedProfitUsd := 100,
    estimatedGasUsd := 5, preparedAt := 0 }

/-- A CRITICAL borrower holding a cached transaction. -/
def c1Borrower : Borrower :=
  mkBorrower "0xc1" BorrowerState.CRITICAL
    [⟨"WETH", 10, 0⟩] [⟨"USDC", 10, 0⟩] (some c1Tx) (some 100)

/-- Registry containing only the C1 borrower, unlocked. -/
def c1Registry : Registry := ⟨[("0xc1", c1Borrower)], []⟩

/-- Concrete registry for the C7 witness: cached transaction prepared at block
100 with TTL 5. -/
def c7Registry : Registry :=
  ⟨[("0xc7", mkBorrower "0xc7" BorrowerState.LIQUIDATABLE
      [⟨"WETH", 10, 0⟩] [⟨"USDC", 10, 0⟩] (some c1Tx) (some 100))], []⟩

/-! ## Price aggregator (class PriceAggregator, src/unnamed/part_003) -/

/-- The aggregator's per-source liveness state: whether each feed is
configured (the feed object exists), its connected flag, and the timestamp of
its last update (0 until first touched, as initialized in the class). -/
structure AggState where
  binanceConfigured : Bool
  pythConfigured : Bool
  binanceConnected : Bool
  pythConnected : Bool
  lastBinanceUpdate : ℤ
  lastPythUpdate : ℤ
deriving DecidableEq, Repr

/-- `canExecuteLiquidation` (part_003 lines 350-373): a source is live iff
connected, `lastUpdate > 0`, and `now − lastUpdate ≤ priceStaleMs`; the policy
allows execution iff at least one source is live (fail-closed). -/
def canExecuteLiquidation (s : AggState) (now priceStaleMs : ℤ) : Bool :=
  let binanceLive := s.binanceConnected && decide (0 < s.lastBinanceUpdate) &&
    decide (now - s.lastBinanceUpdate ≤ priceStaleMs)
  let pythLive := s.pythConnected && decide (0 < s.lastPythUpdate) &&
    decide (now - s.lastPythUpdate ≤ priceStaleMs)
  binanceLive || pythLive

/-- `isPriceStale` (part_003 lines 323-340): true iff some configured and
connected source's last update is older than `priceStaleMs`. -/
def isPriceStale (s : AggState) (now priceStaleMs : ℤ) : Bool :=
  (s.binanceConfigured && s.binanceConnected &&
    decide (now - s.lastBinanceUpdate > priceStaleMs)) ||
  (s.pythConfigured && s.pythConnected &&
    decide (now - s.lastPythUpdate > priceStaleMs))

/-- `areFeedsConnected` (part_003 lines 343-346). -/
def areFeedsConnected (s : AggState) : Bool :=
  s.binanceConnected || s.pythConnected

/-- Feed events that mutate the aggregator's liveness state (the handlers
wired in `initialize`, part_003 lines 181-231); `now` is `Date.now()`. -/
inductive AggEvent where
  | binancePrice (now : ℤ)
  | binanceConnect (now : ℤ)
  | binanceError
  | pythPrice (now : ℤ)
  | pythConnect (now : ℤ)
  | pythError
deriving DecidableEq, Repr

/-- Effect of one feed event on the liveness state. -/
def aggStep (s : AggState) (e : AggEvent) : AggState :=
  match e with
  | .binancePrice now => { s with lastBinanceUpdate := now }
  | .binanceConnect now => { s with binanceConnected := true, lastBinanceUpdate := now }
  | .binanceError => { s with binanceConnected := false }
  | .pythPrice now => { s with lastPythUpdate := now }
  | .pythConnect now => { s with pythConnected := true, lastPythUpdate := now }
  | .pythError => { s with pythConnected := false }

/-- The aggregator's initial liveness state (fields initialized to
`false` / `0` in the class body). -/
def initialAggState (binanceConfigured pythConfigured : Bool) : AggState :=
  ⟨binanceConfigured, pythConfigured, false, false, 0, 0⟩

/-- The timestamp carried by an event is positive (`Date.now()` is a positive
epoch-milliseconds value). -/
def AggEvent.timePos : AggEvent → Prop
  | .binancePrice now => 0 < now
  | .binanceConnect now => 0 < now
  | .pythPrice now => 0 < now
  | .pythConnect now => 0 < now
  | .binanceError => True
  | .pythError => True

/-- The reachability invariant feeding C6: a connected source has a positive
last-update timestamp. -/
def connImpliesUpdate (s : AggState) : Prop :=
  (s.binanceConnected = true → 0 < s.lastBinanceUpdate) ∧
  (s.pythConnected = true → 0 < s.lastPythUpdate)

/-- An aggregator state with exactly the Binance source live. -/
def c6LiveState : AggState := ⟨true, true, true, false, 100, 0⟩

/-- An aggregator state with both sources disconnected (and stale). -/
def c6DeadState : AggState := ⟨true, true, false, false, 100, 0⟩

/-! ## Prepare / execute pipeline (src/index.ts) -/

/-- `SimulationResult` (src/execution/sim.ts). -/
structure SimulationResult where
  success : Bool
  debtAsset : String
  collateralAsset : String
  debtToCover : ℕ
  expectedCollateral : ℕ
  profitUsd : ℚ
  gasEstimate : ℕ
  gasUsd : ℚ
  oracleHF : JsNum
  error : Option String
deriving DecidableEq, Repr

/-- Results of the outbound RPC calls made during `prepareLiquidation`,
supplied as oracles to the (otherwise deterministic) control flow. -/
structure PrepEnv where
  totalDebtUSD : ℚ
  aggState : AggState
  now : ℤ
  currentBlock : ℤ
  flashSim : Option FlashResult
  simResult : Option SimulationResult
  signerPresent : Bool
  builtTx : Option CachedTransaction
deriving DecidableEq, Repr

/-- The locked region of `prepareLiquidation` (src/index.ts lines 493-621,
the body of the `try`): staleness and connectivity guards, simulation via the
flash or direct path, and the cache write.  Releasing the lock is done by the
caller's `finally`. -/
def prepareLocked (cfg : Config) (env : PrepEnv) (r : Registry) (addr : String) : Registry :=
  if isPriceStale env.aggState env.now cfg.priceStaleMs then r
  else if !areFeedsConnected env.aggState then r
  else if cfg.flashLiquidatorAddress ≠ "" then
    match env.flashSim with
    | none => r
    | some sim =>
      if !sim.success then r
      else
        r.modifyBorrower addr (fun b =>
          { b with
            cachedTx := some ⟨cfg.flashLiquidatorAddress, "", 0, sim.gasEstimate, 0, 0,
              sim.expectedProfit, sim.gasUsd, env.now⟩
            flashResult := some sim
            preparedBlockNumber := some env.currentBlock
            lastPreparedBlock := some env.currentBlock })
  else
    match env.simResult with
    | none => r
    | some sim =>
      if !sim.success then r
      else
        let r2 := r.modifyBorrower addr (fun b => { b with oracleHF := sim.oracleHF })
        if env.signerPresent then
          match env.builtTx with
          | some tx =>
            r2.modifyBorrower addr (fun b =>
              { b with
                cachedTx := some tx
                preparedBlockNumber := some env.currentBlock
                lastPreparedBlock := some env.currentBlock })
          | none => r2
        else r2

/-- `prepareLiquidation` (src/index.ts lines 465-622): requires an existing
CRITICAL borrower and debt ≥ MIN_DEBT_USD, then a successful non-blocking lock
acquisition; the lock is always released on exit of the locked region. -/
def prepareLiquidation (cfg : Config) (env : PrepEnv) (r : Registry)
    (addr : String) : Registry :=
  match r.getBorrower addr with
  | none => r
  | some borrower =>
    if borrower.state ≠ BorrowerState.CRITICAL then r
    else if env.totalDebtUSD < cfg.minDebtUsd then
      Registry.updateSkipReason r addr "below_min_debt"
    else
      let p := Registry.tryAcquireLock r addr
      if p.2 then Registry.releaseLock (prepareLocked cfg env p.1 addr) addr
      else p.1

/-- Results of the outbound RPC calls made during `executeLiquidation`. -/
structure ExecEnv where
  totalDebtUSD : ℚ
  aggState : AggState
  now : ℤ
  currentBlock : ℤ
  oracleHF : JsNum
  prepEnv : PrepEnv
deriving DecidableEq, Repr

/-- `hf > q` (JS comparison; `Infinity > q` is true). -/
def JsNum.gtq (hf : JsNum) (q : ℚ) : Bool :=
  match hf with
  | .inf => true
  | .num x => decide (q < x)

/-- The locked region of `executeLiquidation` (src/index.ts lines 653-889,
the body of the `try`): feed-policy, staleness, connectivity and concurrency
gates, cache presence and TTL checks (re-preparing when absent or stale),
final oracle-HF and economic gates, then dispatch.  Returns the new registry,
the new `activeLiquidations` value, and whether the counter increment
(dispatch) was reached.  The caller's `finally` decrements the counter and
releases the lock on every exit path of this region. -/
def execLocked (cfg : Config) (env : ExecEnv) (r0 : Registry) (active : ℤ)
    (addr : String) : Registry × ℤ × Bool :=
  let r := r0.modifyBorrower addr (fun b => { b with lastExecutionAttemptAt := some env.now })
  if !canExecuteLiquidation env.aggState env.now cfg.priceStaleMs then (r, active, false)
  else if isPriceStale env.aggState env.now cfg.priceStaleMs then (r, active, false)
  else if !areFeedsConnected env.aggState then (r, active, false)
  else if cfg.maxConcurrentTx ≤ active then (r, active, false)
  else
    match (r.getBorrower addr).bind (fun b => b.cachedTx) with
    | none => (prepareLiquidation cfg env.prepEnv r addr, active, false)
    | some cachedTx =>
      if Registry.isCachedTxStale cfg r addr env.currentBlock then
        (prepareLiquidation cfg env.prepEnv
          (Registry.invalidateCachedTx r addr "Block TTL exceeded") addr, active, false)
      else
        let r := r.modifyBorrower addr (fun b => { b with oracleHF := env.oracleHF })
        if env.oracleHF.geq 1 then (r, active, false)
        else if env.oracleHF.gtq cfg.hfLiquidatable then (r, active, false)
        else
          let netProfitUsd := cachedTx.expectedProfitUsd - cachedTx.estimatedGasUsd
          if netProfitUsd < cfg.minProfitUsd then
            (Registry.updateSkipReason r addr "profit_floor", active, false)
          else if cachedTx.expectedProfitUsd < cfg.minProfitUsd then
            (Registry.updateSkipReason r addr "profit_floor", active, false)
          else if cfg.maxGasUsd < cachedTx.estimatedGasUsd then
            (Registry.updateSkipReason r addr "gas_guard", active, false)
          else if !cfg.enableExecution || cfg.dryRun then (r, active, false)
          else if !env.prepEnv.signerPresent then (r, active, false)
          else (r, active + 1, true)

/-- The in-process pipeline state: the registry and the module-global
`activeLiquidations` counter (src/index.ts line 22). -/
structure Sys where
  registry : Registry
  activeLiquidations : ℤ
deriving DecidableEq, Repr

/-- `executeLiquidation` (src/index.ts lines 625-900).  The `finally` block
(lines 895-899) decrements `activeLiquidations` and releases the lock on
EVERY exit of the `try` region — including aborts that never reached the
increment at line 816.  The broadcast itself (direct or flash) does not touch
the registry, the counter, or the lock, so its outcome is not modelled.
Returns the new state and whether the dispatch (counter increment) was
reached. -/
def executeLiquidation (cfg : Config) (env : ExecEnv) (s : Sys)
    (addr : String) : Sys × Bool :=
  match s.registry.getBorrower addr with
  | none => (s, false)
  | some borrower =>
    if borrower.state ≠ BorrowerState.LIQUIDATABLE then (s, false)
    else if env.totalDebtUSD < cfg.minDebtUsd then
      ({ s with registry := Registry.updateSkipReason s.registry addr "below_min_debt" }, false)
    else
      let p := Registry.tryAcquireLock s.registry addr
      if p.2 then
        let res := execLocked cfg env p.1 s.activeLiquidations addr
        (⟨Registry.releaseLock res.1 addr, res.2.1 - 1⟩, res.2.2)
      else ({ s with registry := p.1 }, false)

/-- Configuration for the C2 exhibit (bands 3 > 2 > 1, MAX_CONCURRENT_TX = 1,
execution enabled). -/
def c2Cfg : Config :=
  { hfWatch := 3, hfCritical := 2, hfLiquidatable := 1, txCacheTtlBlocks := 5,
    minDebtUsd := 50, minProfitUsd := 50, maxGasUsd := 20, maxConcurrentTx := 1,
    priceStaleMs := 5000, enableExecution := true, dryRun := false,
    flashLiquidatorAddress := "" }

/-- Aggregator state with both feeds configured but disconnected: the policy
gate denies execution. -/
def c2Agg : AggState := ⟨true, true, false, false, 0, 0⟩

/-- Prepare-phase oracles for the C2 exhibit. -/
def c2PrepEnv : PrepEnv := ⟨100, c2Agg, 10000, 100, none, none, false, none⟩

/-- Execute-phase oracles for the C2 exhibit. -/
def c2Env : ExecEnv := ⟨100, c2Agg, 10000, 100, JsNum.num 0, c2PrepEnv⟩

/-- A LIQUIDATABLE borrower with no cached transaction. -/
def c2Borrower : Borrower :=
  mkBorrower "0xc2" BorrowerState.LIQUIDATABLE
    [⟨"WETH", 10, 0⟩] [⟨"USDC", 10, 0⟩] none none

/-- Initial pipeline state for the C2 exhibit: one borrower, no lock held,
`activeLiquidations = 0`. -/
def c2Sys : Sys := ⟨⟨[("0xc2", c2Borrower)], []⟩, 0⟩

/-! ## Theorems -/

/-- **C5.** With configured bands `HF_WATCH > HF_CRITICAL > HF_LIQUIDATABLE`,
`determineState` returns LIQUIDATABLE iff `hf ≤ HF_LIQUIDATABLE`, CRITICAL iff
`HF_LIQUIDATABLE < hf ≤ HF_CRITICAL`, WATCH iff `HF_CRITICAL < hf ≤ HF_WATCH`,
and SAFE otherwise (including `hf = +∞`); and with bands (1.10, 1.04, 1.00)
the eight scenario-S1 inputs map to
SAFE, SAFE, WATCH, WATCH, CRITICAL, CRITICAL, LIQUIDATABLE, LIQUIDATABLE. -/
theorem claim_C5_determineState_bands (w c l : ℚ) (hf : JsNum)
    (hlc : l < c) (hcw : c < w) :
    ((determineState hf w c l = BorrowerState.LIQUIDATABLE ↔ hf.leq l = true) ∧
     (determineState hf w c l = BorrowerState.CRITICAL ↔ JsNum.qlt l hf ∧ hf.leq c = true) ∧
     (determineState hf w c l = BorrowerState.WATCH ↔ JsNum.qlt c hf ∧ hf.leq w = true) ∧
     (determineState hf w c l = BorrowerState.SAFE ↔ JsNum.qlt w hf)) ∧
    ([JsNum.num 2, JsNum.num (111/100), JsNum.num (110/100), JsNum.num (105/100),
      JsNum.num (104/100), JsNum.num (101/100), JsNum.num 1, JsNum.num (1/2)].map
        (fun h => determineState h (110/100) (104/100) 1)
      = [BorrowerState.SAFE, BorrowerState.SAFE, BorrowerState.WATCH, BorrowerState.WATCH,
         BorrowerState.CRITICAL, BorrowerState.CRITICAL,
         BorrowerState.LIQUIDATABLE, BorrowerState.LIQUIDATABLE]) := by
  constructor
  · cases hf with
    | inf =>
      simp [determineState, JsNum.leq, JsNum.qlt]
    | num x =>
      have hres : determineState (JsNum.num x) w c l =
          (if x ≤ l then BorrowerState.LIQUIDATABLE
           else if x ≤ c then BorrowerState.CRITICAL
           else if x ≤ w then BorrowerState.WATCH
           else BorrowerState.SAFE) := by
        simp [determineState, JsNum.leq]
      simp only [JsNum.leq, JsNum.qlt, decide_eq_true_eq, hres]
      split_ifs with h1 h2 h3
      · refine ⟨⟨fun _ => h1, fun _ => rfl⟩, ?_, ?_, ?_⟩
        · exact ⟨fun h => absurd h (by decide), fun h => absurd h1 (by push_neg; linarith [h.1])⟩
        · exact ⟨fun h => absurd h (by decide), fun h => absurd h1 (by push_neg; linarith [h.1])⟩
        · exact ⟨fun h => absurd h (by decide), fun h => absurd h1 (by push_neg; linarith)⟩
      · refine ⟨?_, ⟨fun _ => ⟨by linarith, h2⟩, fun _ => rfl⟩, ?_, ?_⟩
        · exact ⟨fun h => absurd h (by decide), fun h => absurd h h1⟩
        · exact ⟨fun h => absurd h (by decide), fun h => absurd h2 (by push_neg; exact h.1)⟩
        · exact ⟨fun h => absurd h (by decide), fun h => absurd h2 (by push_neg; linarith)⟩
      · refine ⟨?_, ?_, ⟨fun _ => ⟨by linarith, h3⟩, fun _ => rfl⟩, ?_⟩
        · exact ⟨fun h => absurd h (by decide), fun h => absurd h h1⟩
        · exact ⟨fun h => absurd h (by decide), fun h => absurd h.2 h2⟩
        · exact ⟨fun h => absurd h (by decide), fun h => absurd h3 (by push_neg; exact h)⟩
      · refine ⟨?_, ?_, ?_, ⟨fun _ => by push_neg at h3; exact h3, fun _ => rfl⟩⟩
        · exact ⟨fun h => absurd h (by decide), fun h => absurd h h1⟩
        · exact ⟨fun h => absurd h (by decide), fun h => absurd h.2 h2⟩
        · exact ⟨fun h => absurd h (by decide), fun h => absurd h.2 h3⟩
  · norm_num [determineState, JsNum.leq]

/-- Witness for C5: the concrete bands (1.10, 1.04, 1.00) satisfy the band
hypotheses, and instantiating the claim at `hf = 1.05` yields WATCH. -/
theorem claim_C5_witness :
    determineState (JsNum.num (105/100)) (110/100) (104/100) 1 = BorrowerState.WATCH := by
  have h := claim_C5_determineState_bands (110/100) (104/100) 1 (JsNum.num (105/100))
    (by norm_num) (by norm_num)
  exact (h.1.2.2.1).mpr ⟨by norm_num [JsNum.qlt], by norm_num [JsNum.leq]⟩

lemma foldl_price_sum (prices : List (String × PriceData))
    (h : BorrowerBalance → PriceData → ℚ) :
    ∀ (l : List BorrowerBalance) (init : ℚ),
      l.foldl
        (fun sum b =>
          match prices.lookup b.asset with
          | none => sum
          | some p => sum + h b p) init
      = init +
        (l.map (fun b =>
          match prices.lookup b.asset with
          | none => (0 : ℚ)
          | some p => h b p)).sum := by
  intro l
  induction l with
  | nil => intro init; simp
  | cons hd tl ih =>
    intro init
    simp only [List.foldl_cons, List.map_cons, List.sum_cons]
    cases hx : prices.lookup hd.asset with
    | none => simp only [ih]; ring
    | some p => simp only [ih]; ring

lemma calc_totalDebt_eq (debts : List BorrowerBalance)
    (prices : List (String × PriceData)) :
    debts.foldl
      (fun sum balance =>
        match prices.lookup balance.asset with
        | none => sum
        | some price =>
            sum + (balance.amount : ℚ) * price.priceUsd / 10 ^ getTokenDecimalsSync balance.asset)
      0 = totalDebtUsdSpec debts prices := by
  rw [foldl_price_sum prices
    (fun b p => (b.amount : ℚ) * p.priceUsd / 10 ^ getTokenDecimalsSync b.asset)]
  simp only [totalDebtUsdSpec, zero_add]
  rfl

lemma calc_weighted_eq (colls : List BorrowerBalance)
    (prices : List (String × PriceData)) (thr : Option (List (String × ℚ))) :
    colls.foldl
      (fun sum balance =>
        match prices.lookup balance.asset with
        | none => sum
        | some price =>
            sum + (balance.amount : ℚ) * price.priceUsd / 10 ^ getTokenDecimalsSync balance.asset *
              thresholdFor thr balance.asset)
      0 = weightedCollateralSpec colls prices thr := by
  rw [foldl_price_sum prices
    (fun b p => (b.amount : ℚ) * p.priceUsd / 10 ^ getTokenDecimalsSync b.asset *
      thresholdFor thr b.asset)]
  simp only [weightedCollateralSpec, zero_add]
  congr 1
  apply List.map_congr_left
  intro b _
  simp only [collTermUsd]
  cases hx : prices.lookup b.asset with
  | none => rfl
  | some p => ring

/-- **C4.** `calculateHealthFactor` returns `+∞` exactly when the total debt
USD is zero (in particular when every debt price is missing), and otherwise
returns the spec's weighted collateral sum divided by the spec's total debt
sum, where an asset with a missing price contributes zero to its side and the
threshold falls back through the per-asset table to 0.75; the function is
total (never fails). -/
theorem claim_C4_calculateHealthFactor (colls debts : List BorrowerBalance)
    (prices : List (String × PriceData)) (thr : Option (List (String × ℚ))) :
    (calculateHealthFactor colls debts prices thr = JsNum.inf ↔
      totalDebtUsdSpec debts prices = 0) ∧
    (totalDebtUsdSpec debts prices ≠ 0 →
      calculateHealthFactor colls debts prices thr =
        JsNum.num (weightedCollateralSpec colls prices thr / totalDebtUsdSpec debts prices)) ∧
    ((∀ b ∈ debts, prices.lookup b.asset = none) →
      calculateHealthFactor colls debts prices thr = JsNum.inf) := by
  have hd := calc_totalDebt_eq debts prices
  have hw := calc_weighted_eq colls prices thr
  refine ⟨?_, ?_, ?_⟩
  · unfold calculateHealthFactor
    simp only [hd, hw]
    split_ifs with h0
    · simp [h0]
    · simp [h0]
  · intro h0
    unfold calculateHealthFactor
    simp only [hd, hw]
    simp [h0]
  · intro hall
    unfold calculateHealthFactor
    simp only [hd]
    have : totalDebtUsdSpec debts prices = 0 := by
      unfold totalDebtUsdSpec
      apply List.sum_eq_zero
      intro x hx
      rcases List.mem_map.mp hx with ⟨b, hb, rfl⟩
      simp [debtTermUsd, hall b hb]
    simp [this]

/-- Witness for C4: scenario S2 — WETH collateral 10·10^18 at price 2000 with
threshold 0.825 against USDC debt 10000·10^6 at price 1 gives HF = 1.65. -/
theorem claim_C4_witness :
    calculateHealthFactor
      [⟨"WETH", 10 * 10 ^ 18, 0⟩] [⟨"USDC", 10000 * 10 ^ 6, 0⟩]
      [("WETH", ⟨"WETH", 2000, 0, PriceSource.binance⟩),
       ("USDC", ⟨"USDC", 1, 0, PriceSource.binance⟩)] none
      = JsNum.num (165/100) := by
  have h := claim_C4_calculateHealthFactor
    [⟨"WETH", 10 * 10 ^ 18, 0⟩] [⟨"USDC", 10000 * 10 ^ 6, 0⟩]
    [("WETH", ⟨"WETH", 2000, 0, PriceSource.binance⟩),
     ("USDC", ⟨"USDC", 1, 0, PriceSource.binance⟩)] none
  have hd : totalDebtUsdSpec [⟨"USDC", 10000 * 10 ^ 6, 0⟩]
      [("WETH", ⟨"WETH", 2000, 0, PriceSource.binance⟩),
       ("USDC", ⟨"USDC", 1, 0, PriceSource.binance⟩)] = 10000 := by
    simp [totalDebtUsdSpec, debtTermUsd, List.lookup, getTokenDecimalsSync, jsOrNat,
      TOKEN_DECIMALS]
    norm_num
  have hw : weightedCollateralSpec [⟨"WETH", 10 * 10 ^ 18, 0⟩]
      [("WETH", ⟨"WETH", 2000, 0, PriceSource.binance⟩),
       ("USDC", ⟨"USDC", 1, 0, PriceSource.binance⟩)] none = 16500 := by
    simp [weightedCollateralSpec, collTermUsd, List.lookup, getTokenDecimalsSync, jsOrNat,
      TOKEN_DECIMALS, thresholdFor, jsOrQ, DEFAULT_LIQUIDATION_THRESHOLDS]
    norm_num
  rw [h.2.1 (by rw [hd]; norm_num), hd, hw]
  norm_num

/-- `calculateHealthFactor` as a single conditional over the spec sums;
shared refinement used by several theorems below. -/
lemma calcHF_eq (colls debts : List BorrowerBalance)
    (prices : List (String × PriceData)) (thr : Option (List (String × ℚ))) :
    calculateHealthFactor colls debts prices thr =
      if totalDebtUsdSpec debts prices = 0 then JsNum.inf
      else JsNum.num (weightedCollateralSpec colls prices thr / totalDebtUsdSpec debts prices) := by
  unfold calculateHealthFactor
  simp only [calc_totalDebt_eq, calc_weighted_eq]

lemma lookup_mem {α β : Type} [BEq α] [LawfulBEq α] :
    ∀ {l : List (α × β)} {k : α} {v : β}, l.lookup k = some v → (k, v) ∈ l := by
  intro l
  induction l with
  | nil => intro k v h; cases h
  | cons hd tl ih =>
    intro k v h
    rw [List.lookup] at h
    rcases hbeq : k == hd.1 with _ | _
    · rw [hbeq] at h
      exact List.mem_cons_of_mem hd (ih h)
    · rw [hbeq] at h
      injection h with h
      have : k = hd.1 := eq_of_beq hbeq
      subst this
      subst h
      exact List.mem_cons_self _ _

lemma default_threshold_nonneg (asset : String) :
    ∀ x, DEFAULT_LIQUIDATION_THRESHOLDS.lookup asset = some x → 0 ≤ x := by
  intro x h
  have hm := lookup_mem h
  simp only [DEFAULT_LIQUIDATION_THRESHOLDS, List.mem_cons, List.not_mem_nil, or_false,
    Prod.mk.injEq] at hm
  rcases hm with ⟨-, rfl⟩ | ⟨-, rfl⟩ | ⟨-, rfl⟩ | ⟨-, rfl⟩ | ⟨-, rfl⟩ <;> norm_num

lemma thresholdFor_nonneg (thr : Option (List (String × ℚ)))
    (hthr : ∀ m, thr = some m → ∀ kv ∈ m, 0 ≤ kv.2) (asset : String) :
    0 ≤ thresholdFor thr asset := by
  have hdef : 0 ≤ jsOrQ (DEFAULT_LIQUIDATION_THRESHOLDS.lookup asset) (3/4) := by
    unfold jsOrQ
    cases hdl : DEFAULT_LIQUIDATION_THRESHOLDS.lookup asset with
    | none => norm_num
    | some y =>
      by_cases hy : y = 0
      · simp only [if_pos hy]
        norm_num
      · simp only [if_neg hy]
        exact default_threshold_nonneg asset y hdl
  unfold thresholdFor jsOrQ
  cases ho : thr.bind (fun m => m.lookup asset) with
  | none => exact hdef
  | some x =>
    by_cases hx : x = 0
    · simp only [if_pos hx]
      exact hdef
    · simp only [if_neg hx]
      cases ht : thr with
      | none => rw [ht] at ho; cases ho
      | some m =>
        rw [ht, Option.some_bind] at ho
        exact hthr m ht _ (lookup_mem ho)

lemma debtTermUsd_nonneg (prices : List (String × PriceData))
    (hpr : ∀ kv ∈ prices, 0 ≤ kv.2.priceUsd) (b : BorrowerBalance) :
    0 ≤ debtTermUsd prices b := by
  unfold debtTermUsd
  cases hx : prices.lookup b.asset with
  | none => exact le_refl 0
  | some p =>
    have hp : 0 ≤ p.priceUsd := hpr _ (lookup_mem hx)
    positivity

lemma collTermUsd_nonneg (prices : List (String × PriceData))
    (thr : Option (List (String × ℚ)))
    (hpr : ∀ kv ∈ prices, 0 ≤ kv.2.priceUsd)
    (hthr : ∀ m, thr = some m → ∀ kv ∈ m, 0 ≤ kv.2) (b : BorrowerBalance) :
    0 ≤ collTermUsd prices thr b := by
  unfold collTermUsd
  cases hx : prices.lookup b.asset with
  | none => exact le_refl 0
  | some p =>
    have hp : 0 ≤ p.priceUsd := hpr _ (lookup_mem hx)
    have ht := thresholdFor_nonneg thr hthr b.asset
    positivity

lemma totalDebtUsdSpec_nonneg (debts : List BorrowerBalance)
    (prices : List (String × PriceData)) (hpr : ∀ kv ∈ prices, 0 ≤ kv.2.priceUsd) :
    0 ≤ totalDebtUsdSpec debts prices := by
  unfold totalDebtUsdSpec
  apply List.sum_nonneg
  intro x hx
  rcases List.mem_map.mp hx with ⟨b, -, rfl⟩
  exact debtTermUsd_nonneg prices hpr b

lemma weightedCollateralSpec_nonneg (colls : List BorrowerBalance)
    (prices : List (String × PriceData)) (thr : Option (List (String × ℚ)))
    (hpr : ∀ kv ∈ prices, 0 ≤ kv.2.priceUsd)
    (hthr : ∀ m, thr = some m → ∀ kv ∈ m, 0 ≤ kv.2) :
    0 ≤ weightedCollateralSpec colls prices thr := by
  unfold weightedCollateralSpec
  apply List.sum_nonneg
  intro x hx
  rcases List.mem_map.mp hx with ⟨b, -, rfl⟩
  exact collTermUsd_nonneg prices thr hpr hthr b

lemma debtTermUsd_mono (prices : List (String × PriceData))
    (hpr : ∀ kv ∈ prices, 0 ≤ kv.2.priceUsd) (asset : String) (a a' : ℕ) (vu vu' : ℚ)
    (ha : a ≤ a') :
    debtTermUsd prices ⟨asset, a, vu⟩ ≤ debtTermUsd prices ⟨asset, a', vu'⟩ := by
  unfold debtTermUsd
  cases hx : prices.lookup asset with
  | none => exact le_refl 0
  | some p =>
    have hp : 0 ≤ p.priceUsd := hpr _ (lookup_mem hx)
    have hpow : (0 : ℚ) < 10 ^ getTokenDecimalsSync asset := by positivity
    apply (div_le_div_iff_of_pos_right hpow).mpr
    exact mul_le_mul_of_nonneg_right (by exact_mod_cast ha) hp

lemma collTermUsd_mono (prices : List (String × PriceData))
    (thr : Option (List (String × ℚ)))
    (hpr : ∀ kv ∈ prices, 0 ≤ kv.2.priceUsd)
    (hthr : ∀ m, thr = some m → ∀ kv ∈ m, 0 ≤ kv.2)
    (asset : String) (a a' : ℕ) (vu vu' : ℚ) (ha : a ≤ a') :
    collTermUsd prices thr ⟨asset, a, vu⟩ ≤ collTermUsd prices thr ⟨asset, a', vu'⟩ := by
  unfold collTermUsd
  cases hx : prices.lookup asset with
  | none => exact le_refl 0
  | some p =>
    have hp : 0 ≤ p.priceUsd := hpr _ (lookup_mem hx)
    have ht := thresholdFor_nonneg thr hthr asset
    have hpow : (0 : ℚ) < 10 ^ getTokenDecimalsSync asset := by positivity
    apply (div_le_div_iff_of_pos_right hpow).mpr
    exact mul_le_mul_of_nonneg_right
      (mul_le_mul_of_nonneg_right (by exact_mod_cast ha) hp) ht

/-- **C10.** `calculateHealthFactor` is monotone in the balances: with prices
(non-negative, per the data model) and debt fixed, increasing a collateral
amount cannot decrease the HF; with collateral fixed, increasing a debt amount
cannot increase the HF (ordering on HF values places `+∞` at the top). -/
theorem claim_C10_hf_monotone (prices : List (String × PriceData))
    (thr : Option (List (String × ℚ)))
    (hpr : ∀ kv ∈ prices, 0 ≤ kv.2.priceUsd)
    (hthr : ∀ m, thr = some m → ∀ kv ∈ m, 0 ≤ kv.2) :
    (∀ (pre post debts : List BorrowerBalance) (asset : String) (a a' : ℕ) (vu vu' : ℚ),
      a ≤ a' →
      JsNum.le (calculateHealthFactor (pre ++ ⟨asset, a, vu⟩ :: post) debts prices thr)
        (calculateHealthFactor (pre ++ ⟨asset, a', vu'⟩ :: post) debts prices thr)) ∧
    (∀ (colls pre post : List BorrowerBalance) (asset : String) (a a' : ℕ) (vu vu' : ℚ),
      a ≤ a' →
      JsNum.le (calculateHealthFactor colls (pre ++ ⟨asset, a', vu'⟩ :: post) prices thr)
        (calculateHealthFactor colls (pre ++ ⟨asset, a, vu⟩ :: post) prices thr)) := by
  constructor
  · intro pre post debts asset a a' vu vu' ha
    rw [calcHF_eq, calcHF_eq]
    by_cases h0 : totalDebtUsdSpec debts prices = 0
    · simp [h0, JsNum.le]
    · simp only [if_neg h0]
      have hDpos : 0 < totalDebtUsdSpec debts prices :=
        lt_of_le_of_ne (totalDebtUsdSpec_nonneg debts prices hpr) (Ne.symm h0)
      have hW : weightedCollateralSpec (pre ++ ⟨asset, a, vu⟩ :: post) prices thr ≤
          weightedCollateralSpec (pre ++ ⟨asset, a', vu'⟩ :: post) prices thr := by
        unfold weightedCollateralSpec
        simp only [List.map_append, List.map_cons, List.sum_append, List.sum_cons]
        have := collTermUsd_mono prices thr hpr hthr asset a a' vu vu' ha
        linarith
      exact (div_le_div_iff_of_pos_right hDpos).mpr hW
  · intro colls pre post asset a a' vu vu' ha
    rw [calcHF_eq, calcHF_eq]
    have hD : totalDebtUsdSpec (pre ++ ⟨asset, a, vu⟩ :: post) prices ≤
        totalDebtUsdSpec (pre ++ ⟨asset, a', vu'⟩ :: post) prices := by
      unfold totalDebtUsdSpec
      simp only [List.map_append, List.map_cons, List.sum_append, List.sum_cons]
      have := debtTermUsd_mono prices hpr asset a a' vu vu' ha
      linarith
    by_cases h0 : totalDebtUsdSpec (pre ++ ⟨asset, a', vu'⟩ :: post) prices = 0
    · have h0s : totalDebtUsdSpec (pre ++ ⟨asset, a, vu⟩ :: post) prices = 0 :=
        le_antisymm (h0 ▸ hD) (totalDebtUsdSpec_nonneg _ prices hpr)
      simp [h0, h0s, JsNum.le]
    · simp only [if_neg h0]
      by_cases h0s : totalDebtUsdSpec (pre ++ ⟨asset, a, vu⟩ :: post) prices = 0
      · simp [h0s, JsNum.le]
      · simp only [if_neg h0s]
        have hDpos : 0 < totalDebtUsdSpec (pre ++ ⟨asset, a, vu⟩ :: post) prices :=
          lt_of_le_of_ne (totalDebtUsdSpec_nonneg _ prices hpr) (Ne.symm h0s)
        exact div_le_div_of_nonneg_left
          (weightedCollateralSpec_nonneg colls prices thr hpr hthr) hDpos hD

/-- Witness for C10: at the scenario-S2 prices, doubling the WETH collateral
amount does not decrease the HF (the claim instantiated at concrete inputs). -/
theorem claim_C10_witness :
    JsNum.le
      (calculateHealthFactor [⟨"WETH", 10 * 10 ^ 18, 0⟩] [⟨"USDC", 10000 * 10 ^ 6, 0⟩]
        [("WETH", ⟨"WETH", 2000, 0, PriceSource.binance⟩),
         ("USDC", ⟨"USDC", 1, 0, PriceSource.binance⟩)] none)
      (calculateHealthFactor [⟨"WETH", 20 * 10 ^ 18, 0⟩] [⟨"USDC", 10000 * 10 ^ 6, 0⟩]
        [("WETH", ⟨"WETH", 2000, 0, PriceSource.binance⟩),
         ("USDC", ⟨"USDC", 1, 0, PriceSource.binance⟩)] none) := by
  have h := (claim_C10_hf_monotone
    [("WETH", ⟨"WETH", 2000, 0, PriceSource.binance⟩),
     ("USDC", ⟨"USDC", 1, 0, PriceSource.binance⟩)] none
    (by intro kv hkv; simp only [List.mem_cons, List.not_mem_nil, or_false] at hkv;
        rcases hkv with rfl | rfl <;> norm_num)
    (by intro m hm; cases hm)).1
    [] [] [⟨"USDC", 10000 * 10 ^ 6, 0⟩] "WETH" (10 * 10 ^ 18) (20 * 10 ^ 18) 0 0
    (by norm_num)
  simpa using h

/-- **C3, counterexample.**  At the C3 counterexample input the required
collateral as a ceiling is `⌈1.05 / (7·10^17) · 10^18⌉ = 2`, which exceeds the
held collateral balance of 1, so the claim ("returns null if the ceiling of
the required amount exceeds the collateral balance, and the returned required
amount is that ceiling") demands `none`; the code applies `Math.floor`
(giving 1 ≤ 1) and returns a non-null estimate with `collateralAmount = 1`. -/
theorem claim_C3_counterexample :
    estimateLiquidation c3Borrower c3Prices "USDC" "WETH" (1/20)
        = some ⟨"USDC", 10 ^ 6, "WETH", 1, 1/20, 1, 7/10, 1/20⟩ ∧
    ⌈(((10 ^ 6 : ℕ) : ℚ) * 1 / 10 ^ 6 * (1 + 1/20) / (7 * 10 ^ 17) * 10 ^ 18 : ℚ)⌉ = 2 ∧
    ¬ ((2 : ℤ) ≤ ((1 : ℕ) : ℤ)) := by
  refine ⟨?_, ?_, by norm_num⟩
  · have hfd : c3Borrower.debtBalances.find? (fun b => b.asset == "USDC")
        = some ⟨"USDC", 2 * 10 ^ 6, 0⟩ := rfl
    have hfc : c3Borrower.collateralBalances.find? (fun b => b.asset == "WETH")
        = some ⟨"WETH", 1, 0⟩ := rfl
    have hld : c3Prices.lookup "USDC" = some ⟨"USDC", 1, 0, PriceSource.binance⟩ := rfl
    have hlc : c3Prices.lookup "WETH"
        = some ⟨"WETH", 7 * 10 ^ 17, 0, PriceSource.binance⟩ := rfl
    have hdd : getTokenDecimalsSync "USDC" = 6 := rfl
    have hdc : getTokenDecimalsSync "WETH" = 18 := rfl
    rw [estimateLiquidation, hfd, hfc, hld, hlc]
    simp only [hdd, hdc]
    norm_num
  · rw [Int.ceil_eq_iff]; norm_num

/-- **C3, amended.**  For a borrower holding both assets with both prices
present, `estimateLiquidation` returns `debt_amount = ⌊debt/2⌋`,
`debt_value_usd = debt_amount × price / 10^d_dec`, a required collateral
amount equal to the **floor** (not ceiling) of
`debt_value_usd × (1+BONUS) × 10^c_dec / price(collateral)`, `none` when that
floored amount exceeds the collateral balance, and otherwise
`profit_usd = debt_value_usd × BONUS`. -/
theorem claim_C3_estimateLiquidation_amended (borrower : Borrower)
    (prices : List (String × PriceData)) (debtAsset collateralAsset : String)
    (bonus : ℚ) (db cb : BorrowerBalance) (dp cp : PriceData)
    (hdb : borrower.debtBalances.find? (fun b => b.asset == debtAsset) = some db)
    (hcb : borrower.collateralBalances.find? (fun b => b.asset == collateralAsset) = some cb)
    (hdp : prices.lookup debtAsset = some dp)
    (hcp : prices.lookup collateralAsset = some cp) :
    estimateLiquidation borrower prices debtAsset collateralAsset bonus =
      (let debtAmount := db.amount / 2
       let ddec := getTokenDecimalsSync debtAsset
       let cdec := getTokenDecimalsSync collateralAsset
       let debtValueUsd : ℚ := (debtAmount : ℚ) * dp.priceUsd / 10 ^ ddec
       let requiredCollateralAmount : ℤ :=
         ⌊debtValueUsd * (1 + bonus) / cp.priceUsd * 10 ^ cdec⌋
       if (cb.amount : ℤ) < requiredCollateralAmount then none
       else some ⟨debtAsset, debtAmount, collateralAsset, requiredCollateralAmount,
         debtValueUsd * bonus, debtValueUsd,
         (requiredCollateralAmount : ℚ) * cp.priceUsd / 10 ^ cdec, bonus⟩) := by
  rw [estimateLiquidation, hdb, hcb, hdp, hcp]

/-- Witness for C3 (scenario S3): instantiating the amended claim at the S3
inputs gives `debt_amount = 5000·10^6`, `debt_value_usd = 5000`,
`required_collateral_amount = 2.625·10^18` and `profit_usd = 250`. -/
theorem claim_C3_witness :
    estimateLiquidation s3Borrower s3Prices "USDC" "WETH" (1/20)
      = some ⟨"USDC", 5000 * 10 ^ 6, "WETH", 2625 * 10 ^ 15, 250, 5000, 5250, 1/20⟩ := by
  have h := claim_C3_estimateLiquidation_amended s3Borrower s3Prices "USDC" "WETH" (1/20)
    ⟨"USDC", 10000 * 10 ^ 6, 0⟩ ⟨"WETH", 10 * 10 ^ 18, 0⟩
    ⟨"USDC", 1, 0, PriceSource.binance⟩ ⟨"WETH", 2000, 0, PriceSource.binance⟩
    rfl rfl rfl rfl
  rw [h]
  have hdd : getTokenDecimalsSync "USDC" = 6 := rfl
  have hdc : getTokenDecimalsSync "WETH" = 18 := rfl
  simp only [hdd, hdc]
  norm_num

/-- **C1 (code-bug exhibit).**  `updateBorrowerHF` clears the cached
transaction only when the new state is WATCH: a health-factor update that
moves a CRITICAL borrower with a cached transaction directly to SAFE
(`predictedHF = 4 > HF_WATCH`) sets `state = SAFE` while `cachedTx` stays
present, violating the invariant `cached_tx ≠ ∅ ⇒ state ∈ {CRITICAL,
LIQUIDATABLE}` (this is reachable via `handleBorrowerUpdate` and the block
loop, which call `updateBorrowerHF` with no prior invalidation). -/
theorem claim_C1_cachedTx_survives_transition_to_SAFE :
    ((Registry.updateBorrowerHF c1Cfg 1000 c1Registry "0xc1"
        (JsNum.num 4) none).getBorrower "0xc1").map (fun b => b.state)
      = some BorrowerState.SAFE ∧
    ((Registry.updateBorrowerHF c1Cfg 1000 c1Registry "0xc1"
        (JsNum.num 4) none).getBorrower "0xc1").map (fun b => b.cachedTx)
      = some (some c1Tx) := by
  constructor <;> decide

/-- **C7.**  `isCachedTxStale` is true iff the cached transaction is present
and `currentBlock − preparedBlockNumber > TX_CACHE_TTL_BLOCKS` (for any
borrower whose cache carries a positive prepared block, as written by
`prepareLiquidation` from a live chain height); at the boundary,
`prepared = current − TTL` is fresh and `prepared = current − TTL − 1` is
stale. -/
theorem claim_C7_isCachedTxStale_ttl (cfg : Config) (r : Registry) (addr : String)
    (currentBlock : ℤ) (b : Borrower) (hb : r.getBorrower addr = some b)
    (hp : ∀ tx, b.cachedTx = some tx → ∃ p, b.preparedBlockNumber = some p ∧ 0 < p) :
    (Registry.isCachedTxStale cfg r addr currentBlock = true ↔
      (b.cachedTx.isSome = true ∧
       currentBlock - b.preparedBlockNumber.getD 0 > cfg.txCacheTtlBlocks)) ∧
    (b.cachedTx.isSome = true →
      b.preparedBlockNumber = some (currentBlock - cfg.txCacheTtlBlocks) →
      Registry.isCachedTxStale cfg r addr currentBlock = false) ∧
    (b.cachedTx.isSome = true →
      b.preparedBlockNumber = some (currentBlock - cfg.txCacheTtlBlocks - 1) →
      Registry.isCachedTxStale cfg r addr currentBlock = true) := by
  have hmain : Registry.isCachedTxStale cfg r addr currentBlock = true ↔
      (b.cachedTx.isSome = true ∧
       currentBlock - b.preparedBlockNumber.getD 0 > cfg.txCacheTtlBlocks) := by
    unfold Registry.isCachedTxStale
    rw [hb]
    dsimp only
    cases htx : b.cachedTx with
    | none =>
      cases hpb : b.preparedBlockNumber <;> simp
    | some tx =>
      rcases hp tx htx with ⟨p, hpb, hppos⟩
      rw [hpb]
      dsimp only [Option.isSome_some, Option.getD_some]
      rw [if_neg (by omega : ¬ p = 0)]
      simp [gt_iff_lt]
  refine ⟨hmain, ?_, ?_⟩
  · intro htx hpb
    cases hres : Registry.isCachedTxStale cfg r addr currentBlock with
    | false => rfl
    | true =>
      have h2 := (hmain.mp hres).2
      rw [hpb] at h2
      simp only [Option.getD_some] at h2
      omega
  · intro htx hpb
    apply hmain.mpr
    refine ⟨htx, ?_⟩
    rw [hpb]
    simp only [Option.getD_some]
    omega

/-- Witness for C7: at `current = 105 = prepared + TTL` the cache is fresh;
at `current = 106` it is stale (the claim instantiated at a concrete input). -/
theorem claim_C7_witness :
    Registry.isCachedTxStale c1Cfg c7Registry "0xc7" 105 = false ∧
    Registry.isCachedTxStale c1Cfg c7Registry "0xc7" 106 = true := by
  have h105 := claim_C7_isCachedTxStale_ttl c1Cfg c7Registry "0xc7" 105
    (mkBorrower "0xc7" BorrowerState.LIQUIDATABLE
      [⟨"WETH", 10, 0⟩] [⟨"USDC", 10, 0⟩] (some c1Tx) (some 100))
    (by decide) (by intro tx htx; exact ⟨100, rfl, by norm_num⟩)
  have h106 := claim_C7_isCachedTxStale_ttl c1Cfg c7Registry "0xc7" 106
    (mkBorrower "0xc7" BorrowerState.LIQUIDATABLE
      [⟨"WETH", 10, 0⟩] [⟨"USDC", 10, 0⟩] (some c1Tx) (some 100))
    (by decide) (by intro tx htx; exact ⟨100, rfl, by norm_num⟩)
  constructor
  · exact h105.2.1 rfl (by decide)
  · exact h106.2.2 rfl (by decide)

lemma connImpliesUpdate_initial (bc pc : Bool) :
    connImpliesUpdate (initialAggState bc pc) := by
  constructor <;> intro h <;> simp [initialAggState] at h

lemma connImpliesUpdate_step (s : AggState) (e : AggEvent)
    (hs : connImpliesUpdate s) (he : e.timePos) :
    connImpliesUpdate (aggStep s e) := by
  cases e with
  | binancePrice now =>
    exact ⟨fun _ => he, fun h => hs.2 h⟩
  | binanceConnect now =>
    exact ⟨fun _ => he, fun h => hs.2 h⟩
  | binanceError =>
    exact ⟨fun h => by simp [aggStep] at h, fun h => hs.2 h⟩
  | pythPrice now =>
    exact ⟨fun h => hs.1 h, fun _ => he⟩
  | pythConnect now =>
    exact ⟨fun h => hs.1 h, fun _ => he⟩
  | pythError =>
    exact ⟨fun h => hs.1 h, fun h => by simp [aggStep] at h⟩

/-- **C6.**  On every aggregator state satisfying the reachability invariant
(connected ⇒ a positive last update has been recorded; established by
`connImpliesUpdate_initial` and `connImpliesUpdate_step`),
`canExecuteLiquidation` allows execution iff at least one source is live,
where live means connected and `now − last_update_at ≤ PRICE_STALE_MS`;
in particular one live source suffices and zero live sources deny
(fail-closed). -/
theorem claim_C6_canExecuteLiquidation_policy (s : AggState) (now priceStaleMs : ℤ)
    (hinv : connImpliesUpdate s) :
    canExecuteLiquidation s now priceStaleMs = true ↔
      ((s.binanceConnected = true ∧ now - s.lastBinanceUpdate ≤ priceStaleMs) ∨
       (s.pythConnected = true ∧ now - s.lastPythUpdate ≤ priceStaleMs)) := by
  unfold canExecuteLiquidation
  simp only [Bool.or_eq_true, Bool.and_eq_true, decide_eq_true_eq]
  constructor
  · rintro (⟨⟨hc, -⟩, hf⟩ | ⟨⟨hc, -⟩, hf⟩)
    · exact Or.inl ⟨hc, hf⟩
    · exact Or.inr ⟨hc, hf⟩
  · rintro (⟨hc, hf⟩ | ⟨hc, hf⟩)
    · exact Or.inl ⟨⟨hc, hinv.1 hc⟩, hf⟩
    · exact Or.inr ⟨⟨hc, hinv.2 hc⟩, hf⟩

/-- Witness for C6: with exactly one live source execution is allowed; with
zero live sources it is denied (claim instantiated at concrete states,
`now = 105`, `PRICE_STALE_MS = 5000`). -/
theorem claim_C6_witness :
    canExecuteLiquidation c6LiveState 105 5000 = true ∧
    canExecuteLiquidation c6DeadState 105 5000 = false := by
  constructor
  · exact (claim_C6_canExecuteLiquidation_policy c6LiveState 105 5000
      ⟨fun _ => by norm_num [c6LiveState], fun h => by simp [c6LiveState] at h⟩).mpr
      (Or.inl ⟨rfl, by norm_num [c6LiveState]⟩)
  · cases hres : canExecuteLiquidation c6DeadState 105 5000 with
    | false => rfl
    | true =>
      rcases (claim_C6_canExecuteLiquidation_policy c6DeadState 105 5000
        ⟨fun h => by simp [c6DeadState] at h, fun h => by simp [c6DeadState] at h⟩).mp hres with
        ⟨hc, -⟩ | ⟨hc, -⟩ <;> simp [c6DeadState] at hc

/-- **C2 (code-bug exhibit).**  A single `executeLiquidation` call that
aborts inside the locked region before dispatch (here: the price-feed policy
gate denies) still runs the `finally` decrement: starting from
`activeLiquidations = 0` with zero in-flight executions, the completed call
leaves the counter at −1 even though no dispatch happened, so the counter
does not equal the number of in-flight executions and subsequent calls can
pass the `activeLiquidations >= MAX_CONCURRENT_TX` check while MAX broadcasts
are already in flight. -/
theorem claim_C2_counter_decrement_without_dispatch :
    (executeLiquidation c2Cfg c2Env c2Sys "0xc2").2 = false ∧
    (executeLiquidation c2Cfg c2Env c2Sys "0xc2").1.activeLiquidations = -1 := by
  constructor <;> decide

lemma mutex_modifyBorrower (r : Registry) (a : String) (f : Borrower → Borrower) :
    (r.modifyBorrower a f).borrowerMutex = r.borrowerMutex := rfl

lemma getBorrower_releaseLock (r : Registry) (a addr : String) :
    (Registry.releaseLock r a).getBorrower addr = r.getBorrower addr := rfl

lemma lookup_filter_beq_ne (m : List (String × Bool)) (key : String) :
    (m.filter (fun kv => !(kv.1 == key))).lookup key = none := by
  induction m with
  | nil => rfl
  | cons hd tl ih =>
    by_cases h : hd.1 = key
    · simp [List.filter, h, ih]
    · have hbeq : (hd.1 == key) = false := beq_eq_false_iff_ne.mpr h
      have hbeq2 : (key == hd.1) = false := beq_eq_false_iff_ne.mpr (Ne.symm h)
      simp [List.filter, hbeq, List.lookup, hbeq2, ih]

lemma isLocked_releaseLock (r : Registry) (addr : String) :
    Registry.isLocked (Registry.releaseLock r addr) addr = false := by
  unfold Registry.isLocked Registry.isLockedKey Registry.releaseLock
  rw [lookup_filter_beq_ne]
  rfl

lemma tryAcquireLock_snd (r : Registry) (addr : String) :
    (Registry.tryAcquireLock r addr).2 = !(Registry.isLocked r addr) := by
  unfold Registry.tryAcquireLock Registry.isLocked
  dsimp only
  split <;> simp_all

lemma tryAcquireLock_fst_of_fail (r : Registry) (addr : String)
    (h : (Registry.tryAcquireLock r addr).2 = false) :
    (Registry.tryAcquireLock r addr).1 = r := by
  unfold Registry.tryAcquireLock at h ⊢
  dsimp only at h ⊢
  split at h <;> simp_all

lemma isLocked_tryAcquireLock_fst (r : Registry) (addr : String) :
    Registry.isLocked (Registry.tryAcquireLock r addr).1 addr = true := by
  unfold Registry.tryAcquireLock Registry.isLocked Registry.isLockedKey
  dsimp only
  split
  · simp_all [Registry.isLockedKey]
  · simp [List.lookup]

lemma getBorrower_tryAcquireLock_fst (r : Registry) (a addr : String) :
    (Registry.tryAcquireLock r a).1.getBorrower addr = r.getBorrower addr := by
  unfold Registry.tryAcquireLock
  dsimp only
  split <;> rfl

lemma mutex_prepareLocked (cfg : Config) (env : PrepEnv) (r : Registry) (addr : String) :
    (prepareLocked cfg env r addr).borrowerMutex = r.borrowerMutex := by
  unfold prepareLocked
  repeat' split
  all_goals rfl

lemma isLocked_prepareLiquidation (cfg : Config) (env : PrepEnv) (r : Registry)
    (addr : String) :
    Registry.isLocked (prepareLiquidation cfg env r addr) addr
      = Registry.isLocked r addr := by
  unfold prepareLiquidation
  cases hb : r.getBorrower addr with
  | none => rfl
  | some b =>
    dsimp only
    split_ifs with h1 h2 h3
    · rfl
    · rfl
    · have hfree : Registry.isLocked r addr = false := by
        have := tryAcquireLock_snd r addr
        rw [h3] at this
        cases hl : Registry.isLocked r addr
        · rfl
        · rw [hl] at this; cases this
      rw [hfree, isLocked_releaseLock]
    · rw [tryAcquireLock_fst_of_fail r addr (by simpa using h3)]

lemma isLocked_executeLiquidation (cfg : Config) (env : ExecEnv) (s : Sys)
    (addr : String) :
    Registry.isLocked (executeLiquidation cfg env s addr).1.registry addr
      = Registry.isLocked s.registry addr := by
  unfold executeLiquidation
  cases hb : s.registry.getBorrower addr with
  | none => rfl
  | some b =>
    dsimp only
    split_ifs with h1 h2 h3
    · rfl
    · rfl
    · have hfree : Registry.isLocked s.registry addr = false := by
        have := tryAcquireLock_snd s.registry addr
        rw [h3] at this
        cases hl : Registry.isLocked s.registry addr
        · rfl
        · rw [hl] at this; cases this
      rw [hfree]
      exact isLocked_releaseLock _ addr
    · rw [tryAcquireLock_fst_of_fail s.registry addr (by simpa using h3)]

/-- **C8.**  The advisory per-borrower mutex gives mutual exclusion:
`tryAcquireLock` is non-blocking and succeeds iff the lock is free (holding
it afterwards), a second acquisition before release fails, a `prepare` that
finds the lock held (and does not hit the min-debt skip) returns with no side
effect at all, and both `prepareLiquidation` and `executeLiquidation` leave
the lock exactly as they found it (releasing on every exit path), so no lock
is leaked. -/
theorem claim_C8_mutex_discipline :
    (∀ (r : Registry) (addr : String),
      (Registry.tryAcquireLock r addr).2 = !(Registry.isLocked r addr)) ∧
    (∀ (r : Registry) (addr : String),
      Registry.isLocked (Registry.tryAcquireLock r addr).1 addr = true) ∧
    (∀ (r : Registry) (addr : String),
      (Registry.tryAcquireLock (Registry.tryAcquireLock r addr).1 addr).2 = false) ∧
    (∀ (cfg : Config) (env : PrepEnv) (r : Registry) (addr : String),
      Registry.isLocked r addr = true → ¬(env.totalDebtUSD < cfg.minDebtUsd) →
      prepareLiquidation cfg env r addr = r) ∧
    (∀ (cfg : Config) (env : PrepEnv) (r : Registry) (addr : String),
      Registry.isLocked (prepareLiquidation cfg env r addr) addr
        = Registry.isLocked r addr) ∧
    (∀ (cfg : Config) (env : ExecEnv) (s : Sys) (addr : String),
      Registry.isLocked (executeLiquidation cfg env s addr).1.registry addr
        = Registry.isLocked s.registry addr) := by
  refine ⟨tryAcquireLock_snd, isLocked_tryAcquireLock_fst, ?_, ?_,
    isLocked_prepareLiquidation, isLocked_executeLiquidation⟩
  · intro r addr
    rw [tryAcquireLock_snd, isLocked_tryAcquireLock_fst]
    rfl
  · intro cfg env r addr hlock hdebt
    unfold prepareLiquidation
    cases hb : r.getBorrower addr with
    | none => rfl
    | some b =>
      dsimp only
      by_cases h1 : b.state ≠ BorrowerState.CRITICAL
      · rw [if_pos h1]
      · rw [if_neg h1, if_neg hdebt]
        have hsnd : (Registry.tryAcquireLock r addr).2 = false := by
          rw [tryAcquireLock_snd, hlock]
          rfl
        rw [hsnd]
        simp only [Bool.false_eq_true, if_false]
        exact tryAcquireLock_fst_of_fail r addr hsnd

/-- Witness for C8: at a concrete registry with one borrower and a free lock,
a first acquisition succeeds, a second fails, and a full
`prepareLiquidation` / `executeLiquidation` round leaves the lock free
(the claim instantiated at concrete inputs). -/
theorem claim_C8_witness :
    (Registry.tryAcquireLock c2Sys.registry "0xc2").2 = true ∧
    (Registry.tryAcquireLock (Registry.tryAcquireLock c2Sys.registry "0xc2").1 "0xc2").2
      = false ∧
    Registry.isLocked (executeLiquidation c2Cfg c2Env c2Sys "0xc2").1.registry "0xc2"
      = false := by
  refine ⟨?_, claim_C8_mutex_discipline.2.2.1 c2Sys.registry "0xc2", ?_⟩
  · rw [claim_C8_mutex_discipline.1 c2Sys.registry "0xc2"]
    decide
  · rw [claim_C8_mutex_discipline.2.2.2.2.2 c2Cfg c2Env c2Sys "0xc2"]
    decide

lemma lookup_map_if (l : List (String × Borrower)) (key : String)
    (f : Borrower → Borrower) :
    (l.map (fun kv => if kv.1 = key then (kv.1, f kv.2) else kv)).lookup key
      = (l.lookup key).map f := by
  induction l with
  | nil => rfl
  | cons hd tl ih =>
    rcases hd with ⟨k, v⟩
    simp only [List.map_cons]
    by_cases h : k = key
    · subst h
      rw [if_pos rfl]
      simp [List.lookup]
    · rw [if_neg h]
      have hbeq : (key == k) = false := beq_eq_false_iff_ne.mpr (Ne.symm h)
      simp [List.lookup, hbeq, ih]

lemma getBorrower_modifyBorrower (r : Registry) (addr : String)
    (f : Borrower → Borrower) :
    (r.modifyBorrower addr f).getBorrower addr = (r.getBorrower addr).map f := by
  unfold Registry.getBorrower Registry.modifyBorrower
  exact lookup_map_if r.borrowers (lowercase addr) f

lemma prepareLiquidation_of_not_critical (cfg : Config) (env : PrepEnv)
    (r : Registry) (addr : String) (b : Borrower) (hb : r.getBorrower addr = some b)
    (hst : b.state ≠ BorrowerState.CRITICAL) :
    prepareLiquidation cfg env r addr = r := by
  unfold prepareLiquidation
  rw [hb]
  dsimp only
  rw [if_pos hst]

lemma execLocked_cachedTx_none (cfg : Config) (env : ExecEnv) (r0 : Registry)
    (active : ℤ) (addr : String) (b : Borrower)
    (hgb : r0.getBorrower addr = some b)
    (hstate : b.state = BorrowerState.LIQUIDATABLE)
    (hcached : b.cachedTx = none) :
    ((execLocked cfg env r0 active addr).1.getBorrower addr).map (fun x => x.cachedTx)
      = some none := by
  have hgbA : ((r0.modifyBorrower addr
      (fun b => { b with lastExecutionAttemptAt := some env.now })).getBorrower addr)
      = some { b with lastExecutionAttemptAt := some env.now } := by
    rw [getBorrower_modifyBorrower, hgb]
    rfl
  unfold execLocked
  dsimp only
  by_cases hc1 : (!canExecuteLiquidation env.aggState env.now cfg.priceStaleMs) = true
  · rw [if_pos hc1]
    dsimp only
    rw [hgbA]
    simp [hcached]
  · rw [if_neg hc1]
    by_cases hc2 : isPriceStale env.aggState env.now cfg.priceStaleMs = true
    · rw [if_pos hc2]
      dsimp only
      rw [hgbA]
      simp [hcached]
    · rw [if_neg hc2]
      by_cases hc3 : (!areFeedsConnected env.aggState) = true
      · rw [if_pos hc3]
        dsimp only
        rw [hgbA]
        simp [hcached]
      · rw [if_neg hc3]
        by_cases hc4 : cfg.maxConcurrentTx ≤ active
        · rw [if_pos hc4]
          dsimp only
          rw [hgbA]
          simp [hcached]
        · rw [if_neg hc4]
          rw [hgbA, Option.some_bind]
          dsimp only
          rw [hcached]
          dsimp only
          rw [prepareLiquidation_of_not_critical cfg env.prepEnv _ addr
            { b with lastExecutionAttemptAt := some env.now } hgbA (by simp [hstate]),
            hgbA]
          simp [hcached]

lemma execLocked_cachedTx_stale (cfg : Config) (env : ExecEnv) (r0 : Registry)
    (active : ℤ) (addr : String) (b : Borrower) (tx : CachedTransaction) (pb : ℤ)
    (hgb : r0.getBorrower addr = some b)
    (hstate : b.state = BorrowerState.LIQUIDATABLE)
    (hpolicy : canExecuteLiquidation env.aggState env.now cfg.priceStaleMs = true)
    (hstale : isPriceStale env.aggState env.now cfg.priceStaleMs = false)
    (hconn : areFeedsConnected env.aggState = true)
    (hconc : ¬(cfg.maxConcurrentTx ≤ active))
    (hcached : b.cachedTx = some tx)
    (hpb : b.preparedBlockNumber = some pb) (hpb0 : pb ≠ 0)
    (httl : env.currentBlock - pb > cfg.txCacheTtlBlocks) :
    ((execLocked cfg env r0 active addr).1.getBorrower addr).map (fun x => x.cachedTx)
      = some none := by
  have hgbA : ((r0.modifyBorrower addr
      (fun b => { b with lastExecutionAttemptAt := some env.now })).getBorrower addr)
      = some { b with lastExecutionAttemptAt := some env.now } := by
    rw [getBorrower_modifyBorrower, hgb]
    rfl
  unfold execLocked
  dsimp only
  rw [if_neg (by simp [hpolicy]), if_neg (by simp [hstale]), if_neg (by simp [hconn]),
    if_neg hconc, hgbA, Option.some_bind]
  dsimp only
  rw [hcached]
  dsimp only
  have hstaleA : Registry.isCachedTxStale cfg
      (r0.modifyBorrower addr (fun b => { b with lastExecutionAttemptAt := some env.now }))
      addr env.currentBlock = true := by
    unfold Registry.isCachedTxStale
    rw [hgbA]
    dsimp only
    rw [show ({ b with lastExecutionAttemptAt := some env.now } : Borrower).cachedTx
        = b.cachedTx from rfl, hcached,
      show ({ b with lastExecutionAttemptAt := some env.now } : Borrower).preparedBlockNumber
        = b.preparedBlockNumber from rfl, hpb]
    dsimp only
    rw [if_neg hpb0]
    simpa using httl
  rw [if_pos hstaleA]
  dsimp only
  have hinv : Registry.invalidateCachedTx
      (r0.modifyBorrower addr (fun b => { b with lastExecutionAttemptAt := some env.now }))
      addr "Block TTL exceeded"
      = (r0.modifyBorrower addr
          (fun b => { b with lastExecutionAttemptAt := some env.now })).modifyBorrower addr
        (fun b =>
          { b with
            cachedTx := none
            flashResult := none
            preparedBlockNumber := none }) := by
    unfold Registry.invalidateCachedTx
    rw [hgbA]
    dsimp only
    rw [show ({ b with lastExecutionAttemptAt := some env.now } : Borrower).cachedTx
        = b.cachedTx from rfl, hcached]
    rfl
  rw [hinv]
  have hgbInv : (((r0.modifyBorrower addr
      (fun b => { b with lastExecutionAttemptAt := some env.now })).modifyBorrower addr
        (fun b =>
          { b with
            cachedTx := none
            flashResult := none
            preparedBlockNumber := none })).getBorrower addr)
      = some { b with
          lastExecutionAttemptAt := some env.now
          cachedTx := none
          flashResult := none
          preparedBlockNumber := none } := by
    rw [getBorrower_modifyBorrower, hgbA]
    rfl
  rw [prepareLiquidation_of_not_critical cfg env.prepEnv _ addr _ hgbInv
    (by simp [hstate]), hgbInv]
  rfl

/-- **C9.**  `prepareLiquidation` writes none of the cache fields (`cachedTx`,
`flashResult`, `preparedBlockNumber`) when the borrower's lock is already held
or its state is not CRITICAL; consequently the re-prepare calls issued by
`executeLiquidation` (which holds the lock and sees a LIQUIDATABLE borrower)
can never produce a cached transaction: after an execute run that found the
cache absent, or that found it TTL-stale and invalidated it, the borrower's
`cachedTx` is still absent. -/
theorem claim_C9_reprepare_is_noop :
    (∀ (cfg : Config) (env : PrepEnv) (r : Registry) (addr : String) (b : Borrower),
      r.getBorrower addr = some b →
      (Registry.isLocked r addr = true ∨ b.state ≠ BorrowerState.CRITICAL) →
      ((prepareLiquidation cfg env r addr).getBorrower addr).map
          (fun x => (x.cachedTx, x.flashResult, x.preparedBlockNumber))
        = some (b.cachedTx, b.flashResult, b.preparedBlockNumber)) ∧
    (∀ (cfg : Config) (env : ExecEnv) (s : Sys) (addr : String) (b : Borrower),
      s.registry.getBorrower addr = some b →
      b.state = BorrowerState.LIQUIDATABLE →
      b.cachedTx = none →
      (((executeLiquidation cfg env s addr).1.registry.getBorrower addr).map
          (fun x => x.cachedTx)) = some none) ∧
    (∀ (cfg : Config) (env : ExecEnv) (s : Sys) (addr : String) (b : Borrower)
        (tx : CachedTransaction) (pb : ℤ),
      s.registry.getBorrower addr = some b →
      b.state = BorrowerState.LIQUIDATABLE →
      ¬(env.totalDebtUSD < cfg.minDebtUsd) →
      canExecuteLiquidation env.aggState env.now cfg.priceStaleMs = true →
      isPriceStale env.aggState env.now cfg.priceStaleMs = false →
      areFeedsConnected env.aggState = true →
      ¬(cfg.maxConcurrentTx ≤ s.activeLiquidations) →
      (Registry.tryAcquireLock s.registry addr).2 = true →
      b.cachedTx = some tx →
      b.preparedBlockNumber = some pb →
      pb ≠ 0 →
      env.currentBlock - pb > cfg.txCacheTtlBlocks →
      (((executeLiquidation cfg env s addr).1.registry.getBorrower addr).map
          (fun x => x.cachedTx)) = some none) := by
  refine ⟨?_, ?_, ?_⟩
  · intro cfg env r addr b hb hcond
    unfold prepareLiquidation
    rw [hb]
    dsimp only
    by_cases h1 : b.state ≠ BorrowerState.CRITICAL
    · rw [if_pos h1, hb]
      rfl
    · have hlock : Registry.isLocked r addr = true := hcond.resolve_right h1
      rw [if_neg h1]
      by_cases h2 : env.totalDebtUSD < cfg.minDebtUsd
      · rw [if_pos h2]
        unfold Registry.updateSkipReason
        rw [getBorrower_modifyBorrower, hb]
        rfl
      · rw [if_neg h2]
        have hsnd : (Registry.tryAcquireLock r addr).2 = false := by
          rw [tryAcquireLock_snd, hlock]
          rfl
        rw [hsnd]
        simp only [Bool.false_eq_true, if_false]
        rw [tryAcquireLock_fst_of_fail r addr hsnd, hb]
        rfl
  · intro cfg env s addr b hb hstate hcached
    unfold executeLiquidation
    rw [hb]
    dsimp only
    rw [if_neg (by simp [hstate])]
    by_cases hdebt : env.totalDebtUSD < cfg.minDebtUsd
    · rw [if_pos hdebt]
      dsimp only
      unfold Registry.updateSkipReason
      rw [getBorrower_modifyBorrower, hb]
      simp [hcached]
    · rw [if_neg hdebt]
      cases hsnd : (Registry.tryAcquireLock s.registry addr).2 with
      | false =>
        simp only [Bool.false_eq_true, if_false]
        rw [tryAcquireLock_fst_of_fail _ _ hsnd, hb]
        simp [hcached]
      | true =>
        simp only [if_true]
        rw [getBorrower_releaseLock]
        exact execLocked_cachedTx_none cfg env _ _ addr b
          (by rw [getBorrower_tryAcquireLock_fst]; exact hb) hstate hcached
  · intro cfg env s addr b tx pb hb hstate hdebt hpolicy hstale hconn hconc hsnd
      hcached hpb hpb0 httl
    unfold executeLiquidation
    rw [hb]
    dsimp only
    rw [if_neg (by simp [hstate]), if_neg hdebt, hsnd]
    simp only [if_true]
    rw [getBorrower_releaseLock]
    exact execLocked_cachedTx_stale cfg env _ _ addr b tx pb
      (by rw [getBorrower_tryAcquireLock_fst]; exact hb) hstate hpolicy hstale hconn
      hconc hcached hpb hpb0 httl

/-- Witness for C9: running `executeLiquidation` on the concrete C2 system
(LIQUIDATABLE borrower, no cached transaction) leaves `cachedTx` absent —
the re-prepare issued inside the locked region produced nothing (the claim
instantiated at a concrete input). -/
theorem claim_C9_witness :
    (((executeLiquidation c2Cfg c2Env c2Sys "0xc2").1.registry.getBorrower "0xc2").map
        (fun x => x.cachedTx)) = some none :=
  claim_C9_reprepare_is_noop.2.1 c2Cfg c2Env c2Sys "0xc2" c2Borrower (by decide) rfl rfl
